import Mathlib

/-!
Shallow embedding of `code_analyzer.py` (a rule-based static style checker).

Physical lines are `List Char` (Python strings split by `splitlines`); the
host-language parser (`ast.parse`) is external and is modelled as a function
parameter `parse : String → Except String Node` returning either a syntax
tree or a parse error.  `re` patterns appearing in the source are translated
into executable character scanners with the same matching semantics
(documented at each definition).  ASCII character classes stand in for
Python's Unicode classes.
-/

namespace CodeAnalyzer

/-- Python `str.splitlines` restricted to the `'\n'` terminator: splits on
every newline, keeps no terminator in the lines, and a trailing newline
produces no final empty line (`"a\nb".splitlines() == ["a","b"]`,
`"a\n".splitlines() == ["a"]`, `"".splitlines() == []`,
`"\n".splitlines() == [""]`).  Exotic terminators such as `'\r'` are not
modelled. -/
def pyLines : List Char → List (List Char)
  | [] => []
  | c :: cs =>
    if c = '\n' then [] :: pyLines cs
    else
      match pyLines cs with
      | [] => [[c]]
      | l :: ls => (c :: l) :: ls

/-- Python `str.isspace` characters used by `\s`, `strip()` (ASCII range). -/
def isPySpace (c : Char) : Bool :=
  c = ' ' || c = '\t' || c = '\n' || c = '\r' || c = '\x0b' || c = '\x0c'

/-- Python `str.strip()`: drop whitespace from both ends. -/
def pyStrip (l : List Char) : List Char :=
  ((l.dropWhile isPySpace).reverse.dropWhile isPySpace).reverse

/-- Python regex `\w` (ASCII range): letters, digits, underscore. -/
def isWordChar (c : Char) : Bool :=
  c.isAlphanum || c = '_'

/-- `CAMEL_CASE = '^[A-Z][a-zA-Z]*$'` as a predicate on a name:
one upper-case letter followed by letters only. -/
def isCamelCase (w : List Char) : Bool :=
  match w with
  | [] => false
  | c :: rest => c.isUpper && rest.all (fun d => d.isAlpha)

/-- `SNAKE_CASE = '^(_*[a-z]+[a-z_0-9]*|[a-z]+(_[a-z0-9]+)*)$'` as a
predicate.  The second alternative's language is contained in the first's,
and the first matches exactly: any run of underscores, then a lower-case
letter, then characters from `[a-z0-9_]`. -/
def isSnakeCase (w : List Char) : Bool :=
  match w.dropWhile (· = '_') with
  | [] => false
  | c :: rest => c.isLower && rest.all (fun d => d.isLower || d.isDigit || d = '_')

/-- `class Violation`: immutable record of one detected issue. -/
structure Violation where
  src_path : String
  line_no : Nat
  code : String
  message : String
deriving DecidableEq, Repr

/-- `Violation.__str__`: the exact layout `src_path: Line line_no: code message`,
an f-string in the source. -/
def Violation.render (v : Violation) : String :=
  v.src_path ++ ": Line " ++ toString v.line_no ++ ": " ++ v.code ++ " " ++ v.message

/-- `LineCheck.check`: scan the lines with a 1-based counter, collecting
every non-`None` result of `check_line`. -/
def lineCheckAux (f : String → List Char → Nat → Option Violation)
    (path : String) : Nat → List (List Char) → List Violation
  | _, [] => []
  | n, l :: ls =>
    match f path l n with
    | some v => v :: lineCheckAux f path (n + 1) ls
    | none => lineCheckAux f path (n + 1) ls

/-- `LineCheck.check` entry point (counter starts at 1). -/
def lineCheckRun (f : String → List Char → Nat → Option Violation)
    (path : String) (lines : List (List Char)) : List Violation :=
  lineCheckAux f path 1 lines

/-- `LengthCheck.check_line` (S001): `len(line) > 79`. -/
def lengthCheckLine (path : String) (l : List Char) (n : Nat) : Option Violation :=
  if l.length > 79 then some ⟨path, n, "S001", "Too Long"⟩ else none

/-- `IndentCheck.check_line` (S002): `(len(line) - len(line.lstrip(' '))) % 4 != 0`,
i.e. the count of leading space characters is not a multiple of 4. -/
def indentCheckLine (path : String) (l : List Char) (n : Nat) : Option Violation :=
  if (l.length - (l.dropWhile (· = ' ')).length) % 4 ≠ 0 then
    some ⟨path, n, "S002", "Indentation is not a multiple of four"⟩
  else none

/-- Tail test for the S003 pattern: after the semicolon, `\s*(?=#|$)`
matches iff the rest, less leading whitespace, is empty or starts with `#`. -/
def semicolonTail (cs : List Char) : Bool :=
  match cs.dropWhile isPySpace with
  | [] => true
  | c :: _ => c = '#'

/-- `re.search(r'^[^#]*;\s*(?=#|$)', line)`: some `;` before the first `#`
is followed by whitespace and then `#` or end of line. -/
def semicolonScan : List Char → Bool
  | [] => false
  | c :: rest =>
    if c = '#' then false
    else if c = ';' && semicolonTail rest then true
    else semicolonScan rest

/-- `SemicolonCheck.check_line` (S003). -/
def semicolonCheckLine (path : String) (l : List Char) (n : Nat) : Option Violation :=
  if semicolonScan l then
    some ⟨path, n, "S003", "Unnecessary semicolon after a statement"⟩
  else none

/-- `code_part.endswith("  ")`: the last two characters are spaces. -/
def endsWithTwoSpaces (cs : List Char) : Bool :=
  match cs.reverse with
  | ' ' :: ' ' :: _ => true
  | _ => false

/-- `SpacesBeforeCommentCheck.check_line` (S004): a `#` is present, the
stripped line does not itself start with `#`, and the part before the first
`#` does not end with two spaces. -/
def spacesBeforeCommentCheckLine (path : String) (l : List Char) (n : Nat) : Option Violation :=
  if l.contains '#' && !((pyStrip l).head? = some '#' : Bool) then
    if !endsWithTwoSpaces (l.takeWhile (· ≠ '#')) then
      some ⟨path, n, "S004", "Less than two spaces before inline comments"⟩
    else none
  else none

/-- Case-insensitive test that `cs` starts with `TODO`. -/
def todoAt (cs : List Char) : Bool :=
  match cs with
  | t :: o1 :: d :: o2 :: _ =>
    t.toLower = 't' && o1.toLower = 'o' && d.toLower = 'd' && o2.toLower = 'o'
  | _ => false

/-- `TODO` (ignoring case) occurs somewhere in `cs`. -/
def containsTodo : List Char → Bool
  | [] => false
  | c :: rest => todoAt (c :: rest) || containsTodo rest

/-- `re.search(r'#.*TODO', line, IGNORECASE)`: a `#` with `TODO` somewhere
after it; equivalently `TODO` occurs after the first `#`. -/
def todoScan : List Char → Bool
  | [] => false
  | c :: rest => if c = '#' then containsTodo rest else todoScan rest

/-- `TodoCheck.check_line` (S005). -/
def todoCheckLine (path : String) (l : List Char) (n : Nat) : Option Violation :=
  if todoScan l then some ⟨path, n, "S005", "TODO found"⟩ else none

/-- A line is blank for S006's lookback: `not line.strip()`. -/
def isBlankLine (l : List Char) : Bool :=
  l.all isPySpace

/-- `TwoManyBlankLinesCheck.check` (S006): iterate the split lines with a
0-based `idx`; report at `idx + 1` when `idx > 2`, the current line is
non-empty (Python truthiness of the string), and the three preceding lines
strip to empty. -/
def tooManyBlankCheck (path : String) (lines : List (List Char)) : List Violation :=
  (List.range lines.length).filterMap (fun idx =>
    if 2 < idx ∧ lines.getD idx [] ≠ [] ∧ isBlankLine (lines.getD (idx - 1) [])
        ∧ isBlankLine (lines.getD (idx - 2) []) ∧ isBlankLine (lines.getD (idx - 3) []) then
      some ⟨path, idx + 1, "S006", "More than two blank lines preceding a code line"⟩
    else none)

/-- `kw` followed by at least two whitespace characters occurs in `cs`
(`re.search(r'class\s\s+.*', ...)` with `kw = "class"`, likewise `def`). -/
def kwTwoSpacesAt (kw : List Char) (cs : List Char) : Bool :=
  kw.isPrefixOf cs &&
    match cs.drop kw.length with
    | c1 :: c2 :: _ => isPySpace c1 && isPySpace c2
    | _ => false

/-- Unanchored search for `kw` followed by two or more whitespace characters. -/
def kwTwoSpacesScan (kw : List Char) : List Char → Bool
  | [] => false
  | c :: rest => kwTwoSpacesAt kw (c :: rest) || kwTwoSpacesScan kw rest

/-- `ConstructionSpaceCheck.check_line` (S007): on the stripped line, a
`class`/`def` prefix with the corresponding two-space pattern found anywhere. -/
def constructionSpaceCheckLine (path : String) (l : List Char) (n : Nat) : Option Violation :=
  let s := pyStrip l
  if "class".toList.isPrefixOf s && kwTwoSpacesScan "class".toList s then
    some ⟨path, n, "S007", "Too many spaces after 'class'"⟩
  else if "def".toList.isPrefixOf s && kwTwoSpacesScan "def".toList s then
    some ⟨path, n, "S007", "Too many spaces after 'def'"⟩
  else none

/-- Match `class\s+(\w+):` at the head of `cs`, returning group 1.
`\s+` and `\w+` are maximal runs: a shorter `\s+` leaves a whitespace
character where `\w` must match, and a shorter `\w+` leaves a word
character where `:` must match, so backtracking cannot succeed either way. -/
def classNameAt (cs : List Char) : Option (List Char) :=
  if "class".toList.isPrefixOf cs then
    let after := cs.drop 5
    let ws := after.takeWhile isPySpace
    if ws ≠ [] then
      let after2 := after.drop ws.length
      let w := after2.takeWhile isWordChar
      if w ≠ [] ∧ (after2.drop w.length).head? = some ':' then some w else none
    else none
  else none

/-- `re.search(r'class\s+(\w+):', line)`: leftmost match, group 1. -/
def classNameSearch : List Char → Option (List Char)
  | [] => none
  | c :: rest =>
    match classNameAt (c :: rest) with
    | some w => some w
    | none => classNameSearch rest

/-- `ClassNameCheck.check_line` (S008): the matched class name fails
`CAMEL_CASE`. -/
def classNameCheckLine (path : String) (l : List Char) (n : Nat) : Option Violation :=
  match classNameSearch l with
  | some w =>
    if !isCamelCase w then
      some ⟨path, n, "S008", "Class name '" ++ String.mk w ++ "' should use CamelCase"⟩
    else none
  | none => none

/-- Match `def\s+([\w_]+)\(` at the head of `cs`, returning group 1
(`[\w_]` is the same class as `\w`; the same maximal-run reasoning applies). -/
def defNameAt (cs : List Char) : Option (List Char) :=
  if "def".toList.isPrefixOf cs then
    let after := cs.drop 3
    let ws := after.takeWhile isPySpace
    if ws ≠ [] then
      let after2 := after.drop ws.length
      let w := after2.takeWhile isWordChar
      if w ≠ [] ∧ (after2.drop w.length).head? = some '(' then some w else none
    else none
  else none

/-- `re.search(r'def\s+([\w_]+)\(', line)`: leftmost match, group 1. -/
def defNameSearch : List Char → Option (List Char)
  | [] => none
  | c :: rest =>
    match defNameAt (c :: rest) with
    | some w => some w
    | none => defNameSearch rest

/-- `FunctionNameCheck.check_line` (S009): the matched function name fails
`SNAKE_CASE`. -/
def functionNameCheckLine (path : String) (l : List Char) (n : Nat) : Option Violation :=
  match defNameSearch l with
  | some w =>
    if !isSnakeCase w then
      some ⟨path, n, "S009", "Function name '" ++ String.mk w ++ "' should use snake_case"⟩
    else none
  | none => none

mutual

/-- `ast.arguments`, the parameter table of a function definition, with
its distinct compartments kept apart exactly as in the Python AST:
`posonlyargs` (before `/`), `args` (ordinary positional), `vararg`
(`*args`), `kwonlyargs` (after `*`), `kwarg` (`**kwargs`), `defaults`
(default values of the trailing positional parameters) and `kw_defaults`
(default values of keyword-only parameters).  Argument entries are the
parameter names (`ast.arg.arg`). -/
inductive PyArguments where
  | mk (posonlyargs : List String) (args : List String) (vararg : Option String)
      (kwonlyargs : List String) (kwarg : Option String)
      (defaults : List Node) (kw_defaults : List Node)

/-- Syntax-tree nodes, covering the constructors the tree checks inspect
(`ast.FunctionDef` with its `ast.arguments` table and body,
`ast.Assign` with its targets, `ast.Name`, and the mutable collection
literals `ast.List` / `ast.Dict` / `ast.Set`); every other node kind is
`other`.  `lineno` is the construct's starting line as reported by the
parser (`ast.Module` carries none; `module` stands apart). -/
inductive Node where
  | module (body : List Node)
  | functionDef (lineno : Nat) (nm : String) (args : PyArguments) (body : List Node)
  | assign (lineno : Nat) (targets : List Node) (value : Node)
  | nameE (lineno : Nat) (id : String)
  | listE (lineno : Nat) (elts : List Node)
  | dictE (lineno : Nat) (elts : List Node)
  | setE (lineno : Nat) (elts : List Node)
  | other (lineno : Nat) (children : List Node)

end

/-- `node.args.args`: the ordinary positional parameter names. -/
def PyArguments.args : PyArguments → List String
  | .mk _ a _ _ _ _ _ => a

/-- `node.args.defaults`: defaults of trailing positional parameters. -/
def PyArguments.defaults : PyArguments → List Node
  | .mk _ _ _ _ _ d _ => d

/-- `node.args.kw_defaults`: defaults of keyword-only parameters. -/
def PyArguments.kw_defaults : PyArguments → List Node
  | .mk _ _ _ _ _ _ kd => kd

/-- The starting line of a node (`node.lineno`; 0 for `module`, which has
no `lineno` attribute and is never inspected by a check). -/
def Node.lineno : Node → Nat
  | .module _ => 0
  | .functionDef ln _ _ _ => ln
  | .assign ln _ _ => ln
  | .nameE ln _ => ln
  | .listE ln _ => ln
  | .dictE ln _ => ln
  | .setE ln _ => ln
  | .other ln _ => ln

mutual

/-- `ast.walk(tree)`: every node reachable from the root, each exactly
once, the root first.  (`ast.walk` enumerates breadth-first; no check's
result depends on the order, only on each node being visited once, so the
traversal is modelled depth-first.  The intermediate `ast.arguments` /
`ast.arg` nodes themselves are not `Node` values — no check inspects
them — but the default-value expressions hanging under them are walked.) -/
def walk : Node → List Node
  | .module body => .module body :: walkList body
  | .functionDef ln nm ar body =>
      .functionDef ln nm ar body :: (walkPyArguments ar ++ walkList body)
  | .assign ln ts v => .assign ln ts v :: (walkList ts ++ walk v)
  | .nameE ln id => [.nameE ln id]
  | .listE ln elts => .listE ln elts :: walkList elts
  | .dictE ln elts => .dictE ln elts :: walkList elts
  | .setE ln elts => .setE ln elts :: walkList elts
  | .other ln cs => .other ln cs :: walkList cs

/-- Walk the expressions reachable through an `ast.arguments` table: the
positional defaults and the keyword-only defaults. -/
def walkPyArguments : PyArguments → List Node
  | .mk _ _ _ _ _ ds kwds => walkList ds ++ walkList kwds

/-- Walk each node of a list in turn. -/
def walkList : List Node → List Node
  | [] => []
  | n :: ns => walk n ++ walkList ns

end

/-- `AstCheck.check` minus the parse step: collect the non-`None` results
of `check_node` over every walked node. -/
def astCheckRun (f : String → Node → Option Violation)
    (path : String) (tree : Node) : List Violation :=
  (walk tree).filterMap (f path)

/-- `ArgumentNameCheck.check_node` (S010): on a `FunctionDef`, report at
the definition's line if some name in `node.args.args` — and only there:
the loop is `for arg in node.args.args`, so positional-only, keyword-only,
`*args` and `**kwargs` names are never inspected — fails `SNAKE_CASE`
(first offender only). -/
def argumentNameCheckNode (path : String) : Node → Option Violation
  | .functionDef ln _ ar _ =>
    match ar.args.find? (fun a => !isSnakeCase a.toList) with
    | some _ => some ⟨path, ln, "S010", "Argument name should use snake_case"⟩
    | none => none
  | _ => none

/-- An assignment target that is a plain `Name` whose id fails `SNAKE_CASE`. -/
def badNameTarget : Node → Bool
  | .nameE _ id => !isSnakeCase id.toList
  | _ => false

/-- `VariableNameCheck.check_node` (S011): on an `Assign`, report at the
assignment's line if some single-name target (the first found) fails
`SNAKE_CASE`. -/
def variableNameCheckNode (path : String) : Node → Option Violation
  | .assign ln targets _ =>
    match targets.find? badNameTarget with
    | some _ => some ⟨path, ln, "S011", "Variable should be written in snake_case"⟩
    | none => none
  | _ => none

/-- `isinstance(default, (ast.List, ast.Dict, ast.Set))`. -/
def isMutableLiteral : Node → Bool
  | .listE _ _ => true
  | .dictE _ _ => true
  | .setE _ _ => true
  | _ => false

/-- `DefaultMutableCheck.check_node` (S012): on a `FunctionDef`, report at
the definition's line if some default in `node.args.defaults` — and only
there: the loop is `for default in node.args.defaults`, so the
`kw_defaults` of keyword-only parameters are never inspected — is a
mutable collection literal (first offender only). -/
def defaultMutableCheckNode (path : String) : Node → Option Violation
  | .functionDef ln _ ar _ =>
    match ar.defaults.find? isMutableLiteral with
    | some _ => some ⟨path, ln, "S012", "Default argument value is mutable"⟩
    | none => none
  | _ => none

/-- The source split into lines of characters (`source.splitlines()`). -/
def linesOf (source : String) : List (List Char) :=
  pyLines source.toList

/-- `Analyzer.check` up to printing: run the twelve checks in declaration
order over the file's content and concatenate their violation lists.  Each
`AstCheck.check` calls `ast.parse(source)` itself; an uncaught parse error
aborts with no result.  `parse` is the external host-language parser. -/
def analyzerViolations (parse : String → Except String Node)
    (path source : String) : Except String (List Violation) := do
  let lines := linesOf source
  let l1 := lineCheckRun lengthCheckLine path lines
  let l2 := lineCheckRun indentCheckLine path lines
  let l3 := lineCheckRun semicolonCheckLine path lines
  let l4 := lineCheckRun spacesBeforeCommentCheckLine path lines
  let l5 := lineCheckRun todoCheckLine path lines
  let l6 := tooManyBlankCheck path lines
  let l7 := lineCheckRun constructionSpaceCheckLine path lines
  let l8 := lineCheckRun classNameCheckLine path lines
  let l9 := lineCheckRun functionNameCheckLine path lines
  let t1 ← parse source
  let a10 := astCheckRun argumentNameCheckNode path t1
  let t2 ← parse source
  let a11 := astCheckRun variableNameCheckNode path t2
  let t3 ← parse source
  let a12 := astCheckRun defaultMutableCheckNode path t3
  pure (l1 ++ l2 ++ l3 ++ l4 ++ l5 ++ l6 ++ l7 ++ l8 ++ l9 ++ a10 ++ a11 ++ a12)

/-- Insert `v` after every collected violation whose line number is
strictly smaller, before the rest. -/
def insertByLine (v : Violation) : List Violation → List Violation
  | [] => [v]
  | w :: ws =>
    if w.line_no < v.line_no then w :: insertByLine v ws else v :: w :: ws

/-- `sorted(violations, key=lambda v: v.line_no)`: Python's `sorted` is a
stable sort keyed here by `line_no` alone; a stable sort's output is
uniquely determined by the key, so this insertion sort (which keeps
equal-keyed elements in input order) computes the same list. -/
def sortByLine : List Violation → List Violation
  | [] => []
  | v :: vs => insertByLine v (sortByLine vs)

/-- The tail of `Analyzer.check`: sort the collected violations stably by
line number and print each (`__str__` rendering), one line per violation. -/
def analyzerOutput (parse : String → Except String Node)
    (path source : String) : Except String (List String) :=
  (analyzerViolations parse path source).map
    (fun vs => (sortByLine vs).map Violation.render)

/-- The driver loop over discovered files (pairs of path and content):
print each file's report in turn; an uncaught exception from
`Analyzer.check` stops the program, so that file and all remaining files
produce nothing, and the error surfaces.  Returns the emitted lines and
the uncaught error, if any. -/
def runFiles (parse : String → Except String Node) :
    List (String × String) → List String × Option String
  | [] => ([], none)
  | (p, s) :: rest =>
    match analyzerOutput parse p s with
    | .error e => ([], some e)
    | .ok out =>
      match runFiles parse rest with
      | (outs, err) => (out ++ outs, err)

/-- A parse failure short-circuits `Analyzer.check` before any result is
assembled: the nine line-check lists are computed but discarded. -/
theorem analyzerViolations_parse_error (parse : String → Except String Node)
    (path source e : String) (hp : parse source = Except.error e) :
    analyzerViolations parse path source = Except.error e := by
  unfold analyzerViolations
  rw [hp]
  rfl

/-- A parse failure reaches the printing stage as the same error. -/
theorem analyzerOutput_parse_error (parse : String → Except String Node)
    (path source e : String) (hp : parse source = Except.error e) :
    analyzerOutput parse path source = Except.error e := by
  unfold analyzerOutput
  rw [analyzerViolations_parse_error parse path source e hp]
  rfl

/-- The argument path resolved against the filesystem (external): a
directory with its discovered files, a single file with its content, or a
path that is neither. -/
inductive PathKind where
  | dir (files : List (String × String))
  | file (source : String)
  | missing
deriving Repr

/-- The module-level driver: `os.path.isdir` → walk and analyze every
discovered file; `os.path.isfile` → analyze the one file; otherwise no
branch runs and the program ends silently. -/
def driver (parse : String → Except String Node)
    (pathArg : String) : PathKind → List String × Option String
  | .dir files => runFiles parse files
  | .file source => runFiles parse [(pathArg, source)]
  | .missing => ([], none)

/-- C2: For every file whose source text the host-language parser rejects,
the parse error is not caught anywhere: the tree-check discipline
propagates it and the whole multi-file run aborts, producing no further
output for any remaining file (the run's output is exactly the output of
the files before the rejected one, whatever follows it). -/
theorem parse_error_aborts_whole_run (parse : String → Except String Node)
    (pre : List (String × String)) (p s e : String) (rest : List (String × String))
    (hpre : ∀ q t, (q, t) ∈ pre → ∃ out, analyzerOutput parse q t = Except.ok out)
    (h : parse s = Except.error e) :
    ∃ preOut, runFiles parse (pre ++ (p, s) :: rest) = (preOut, some e) ∧
      runFiles parse (pre ++ [(p, s)]) = (preOut, some e) := by
  induction pre with
  | nil =>
    refine ⟨[], ?_, ?_⟩ <;>
      simp [runFiles, analyzerOutput_parse_error parse _ s e h]
  | cons qt pre ih =>
    obtain ⟨q, t⟩ := qt
    obtain ⟨out, hout⟩ := hpre q t (by simp)
    obtain ⟨preOut, h1, h2⟩ := ih (fun q' t' hm => hpre q' t' (by simp [hm]))
    exact ⟨out ++ preOut, by simp [runFiles, hout, h1], by simp [runFiles, hout, h2]⟩

/-- A parser for witnesses: rejects exactly the source `"x="`, returns an
empty module otherwise. -/
def parseStub (s : String) : Except String Node :=
  if s = "x=" then Except.error "SyntaxError" else Except.ok (Node.module [])

/-- C2 witness: a three-file run aborts at the second file (whose source
the parser rejects), emitting only the first file's report. -/
theorem parse_error_aborts_whole_run_witness :
    ∃ preOut,
      runFiles parseStub ([("a", "#")] ++ ("b", "x=") :: [("c", "y = 1")]) =
        (preOut, some "SyntaxError") ∧
      runFiles parseStub ([("a", "#")] ++ [("b", "x=")]) =
        (preOut, some "SyntaxError") := by
  refine parse_error_aborts_whole_run parseStub
    [("a", "#")] "b" "x=" "SyntaxError" [("c", "y = 1")] ?_ (by rfl)
  intro q t hm
  simp only [List.mem_singleton, Prod.mk.injEq] at hm
  exact ⟨(sortByLine []).map Violation.render, by rw [hm.1, hm.2]; rfl⟩

/-- C10: When the parser rejects a file's source, no violations at all are
printed for that file — including those the line checks had already
computed — because printing happens only after every check has completed;
the per-file output is empty, not partial. -/
theorem parse_error_no_partial_report (parse : String → Except String Node)
    (p s e : String) (hp : parse s = Except.error e) :
    analyzerOutput parse p s = Except.error e ∧
    runFiles parse [(p, s)] = ([], some e) := by
  refine ⟨analyzerOutput_parse_error parse p s e hp, ?_⟩
  simp [runFiles, analyzerOutput_parse_error parse p s e hp]

/-- C10 witness: the source `" x=[1];"` triggers the line checks S002 (one
leading space) and S003 (trailing semicolon), yet with a rejecting parser
the file's report is empty rather than partial. -/
theorem parse_error_no_partial_report_witness :
    analyzerOutput (fun _ => Except.error "SyntaxError") "p" " x=[1];" =
      Except.error "SyntaxError" ∧
    runFiles (fun _ => Except.error "SyntaxError") [("p", " x=[1];")] =
      ([], some "SyntaxError") :=
  parse_error_no_partial_report (fun _ => Except.error "SyntaxError")
    "p" " x=[1];" "SyntaxError" rfl

/-- C8: If the single positional path argument refers to neither an
existing file nor an existing directory, neither driver branch runs: the
program produces no output, surfaces no error, and ends normally. -/
theorem missing_path_silent_noop (parse : String → Except String Node)
    (pathArg : String) :
    driver parse pathArg PathKind.missing = ([], none) := rfl

/-- C7: The analysis is a deterministic function of the file's content and
path with no state carried across runs or files: presenting the same
unmodified file twice yields the identical report both times. -/
theorem analyzer_deterministic (parse : String → Except String Node)
    (p s : String) (out : List String)
    (h : analyzerOutput parse p s = Except.ok out) :
    runFiles parse [(p, s), (p, s)] = (out ++ out, none) ∧
    analyzerOutput parse p s = analyzerOutput parse p s := by
  refine ⟨?_, rfl⟩
  simp [runFiles, h]

/-- C7 witness: analyzing `"x = 1;"` twice prints the same S003 line twice. -/
theorem analyzer_deterministic_witness :
    runFiles parseStub [("p", "x = 1;"), ("p", "x = 1;")] =
      (["p: Line 1: S003 Unnecessary semicolon after a statement"] ++
        ["p: Line 1: S003 Unnecessary semicolon after a statement"], none) ∧
    analyzerOutput parseStub "p" "x = 1;" = analyzerOutput parseStub "p" "x = 1;" :=
  analyzer_deterministic parseStub "p" "x = 1;"
    ["p: Line 1: S003 Unnecessary semicolon after a statement"] (by rfl)

/-- C3 counterexample: in the source `"\n\n\n \nx"` the first four lines
are all blank (the fourth is the whitespace-only `" "`), yet S006 fires
twice — once at line 4, which is itself a blank line (the check tests
Python truthiness, i.e. non-emptiness, not non-blankness), and once at the
code line 5 — so four consecutive blank lines followed by a code line do
not produce exactly one S006 at the code line. -/
theorem blank_check_counterexample :
    (tooManyBlankCheck "p" (linesOf "\n\n\n \nx")).map Violation.line_no = [4, 5] ∧
    isBlankLine ((linesOf "\n\n\n \nx").getD 3 []) = true ∧
    ((linesOf "\n\n\n \nx").take 4).all isBlankLine = true ∧
    (linesOf "\n\n\n \nx").getD 4 [] = ['x'] := by decide

/-- C3 amended: S006 fires at line `idx + 1` exactly when at least three
lines precede line `idx + 1`, the current line is non-empty (it may be
whitespace-only), and each of the three immediately preceding lines is
blank (empty or whitespace-only); and four consecutive *empty* lines
followed by a code line produce exactly one S006, at the code line. -/
theorem blank_check_characterization (path : String) (lines : List (List Char))
    (v : Violation) :
    (v ∈ tooManyBlankCheck path lines ↔
      ∃ idx, idx < lines.length ∧ 2 < idx ∧ lines.getD idx [] ≠ [] ∧
        isBlankLine (lines.getD (idx - 1) []) ∧ isBlankLine (lines.getD (idx - 2) []) ∧
        isBlankLine (lines.getD (idx - 3) []) ∧
        v = ⟨path, idx + 1, "S006", "More than two blank lines preceding a code line"⟩) ∧
    (∀ l : List Char, l ≠ [] →
      (tooManyBlankCheck path [[], [], [], [], l]).map Violation.line_no = [5]) := by
  constructor
  · simp only [tooManyBlankCheck, List.mem_filterMap, List.mem_range]
    constructor
    · rintro ⟨idx, hidx, hsome⟩
      split at hsome
      · rename_i hcond
        obtain ⟨h1, h2, h3, h4, h5⟩ := hcond
        cases hsome
        exact ⟨idx, hidx, h1, h2, h3, h4, h5, rfl⟩
      · cases hsome
    · rintro ⟨idx, hidx, h1, h2, h3, h4, h5, rfl⟩
      exact ⟨idx, hidx, by rw [if_pos ⟨h1, h2, h3, h4, h5⟩]⟩
  · intro l hl
    have hr : List.range 5 = [0, 1, 2, 3, 4] := rfl
    simp only [tooManyBlankCheck, List.length_cons, List.length_nil, hr, List.filterMap]
    norm_num [List.getD, isBlankLine, hl]

/-- C3 (amended) witness: in `"\n\n\n\nx"` — four empty lines then code —
the single S006 sits at line 5, and the characterization places it there. -/
theorem blank_check_characterization_witness :
    (⟨"p", 5, "S006", "More than two blank lines preceding a code line"⟩ : Violation) ∈
      tooManyBlankCheck "p" (linesOf "\n\n\n\nx") ∧
    (tooManyBlankCheck "p" [[], [], [], [], ['x']]).map Violation.line_no = [5] := by
  constructor
  · exact (blank_check_characterization "p" (linesOf "\n\n\n\nx")
      ⟨"p", 5, "S006", "More than two blank lines preceding a code line"⟩).1.mpr
      ⟨4, by decide, by decide, by decide, by decide, by decide, by decide, rfl⟩
  · exact (blank_check_characterization "p" [[], [], [], [], ['x']]
      ⟨"p", 5, "S006", "More than two blank lines preceding a code line"⟩).2 ['x']
      (by decide)

/-- C4 (amended): On every physical line where the textual
class-definition pattern `class\s+(\w+):` matches with name `w` — the
code's best-effort recognition of a class definition; a class header whose
name is not immediately followed by `:`, such as one with a base-class
list, is not recognized and never yields S008 — S008 fires exactly when
`w` fails the CamelCase pattern `^[A-Z][a-zA-Z]*$`, and when it fires its
message is exactly `Class name '<name>' should use CamelCase`. -/
theorem class_name_check_correct (path : String) (l : List Char) (n : Nat)
    (w : List Char) (h : classNameSearch l = some w) :
    (classNameCheckLine path l n = none ↔ isCamelCase w = true) ∧
    (isCamelCase w = false →
      classNameCheckLine path l n =
        some ⟨path, n, "S008", "Class name '" ++ String.mk w ++ "' should use CamelCase"⟩) := by
  unfold classNameCheckLine
  rw [h]
  cases hc : isCamelCase w <;> simp [hc]

/-- C4 counterexample: the line `class fooBar(Base):` contains a class
definition whose name `fooBar` fails CamelCase, yet S008 does not fire —
the search pattern `class\s+(\w+):` requires `:` immediately after the
name, so the base-class list defeats it (`classNameSearch` finds no
match), and the line check returns nothing. -/
theorem class_name_check_counterexample :
    classNameCheckLine "p" "class fooBar(Base):".toList 1 = none ∧
    classNameSearch "class fooBar(Base):".toList = none ∧
    isCamelCase "fooBar".toList = false ∧
    "class ".toList.isPrefixOf "class fooBar(Base):".toList = true := by decide

/-- C4 witness: `class fooBar:` yields S008 naming `fooBar`; `class FooBar:`
yields no S008. -/
theorem class_name_check_correct_witness :
    classNameCheckLine "p" "class fooBar:".toList 1 =
      some ⟨"p", 1, "S008", "Class name 'fooBar' should use CamelCase"⟩ ∧
    classNameCheckLine "p" "class FooBar:".toList 1 = none := by
  constructor
  · have := (class_name_check_correct "p" "class fooBar:".toList 1 "fooBar".toList
      (by decide)).2 (by decide)
    rw [this]
    decide
  · exact (class_name_check_correct "p" "class FooBar:".toList 1 "FooBar".toList
      (by decide)).1.mpr (by decide)

/-- A function definition some of whose `node.args.args` names fail
`SNAKE_CASE`. -/
def hasBadArg : Node → Bool
  | .functionDef _ _ ar _ => ar.args.any (fun a => !isSnakeCase a.toList)
  | _ => false

/-- A function definition some of whose `node.args.defaults` values are
mutable collection literals. -/
def hasMutableDefault : Node → Bool
  | .functionDef _ _ ar _ => ar.defaults.any isMutableLiteral
  | _ => false

/-- `filterMap` produces exactly one element per input on which `f` is
`some`, counted by the matching Boolean predicate. -/
theorem length_filterMap_countP {α β : Type} (f : α → Option β) (p : α → Bool)
    (l : List α) (h : ∀ a, (f a).isSome = p a) :
    (l.filterMap f).length = l.countP p := by
  rw [List.length_filterMap_eq_countP]
  rw [funext h]

/-- The S010 node check is `some` exactly on definitions with an offending
argument. -/
theorem argumentNameCheckNode_isSome (path : String) (nd : Node) :
    (argumentNameCheckNode path nd).isSome = hasBadArg nd := by
  cases nd with
  | functionDef ln nm ar body =>
    simp only [argumentNameCheckNode, hasBadArg]
    cases hfind : ar.args.find? (fun a => !isSnakeCase a.toList) with
    | some a =>
      exact (List.any_eq_true.mpr
        ⟨a, List.mem_of_find?_eq_some hfind, List.find?_some hfind⟩).symm
    | none =>
      exact (List.any_eq_false.mpr (fun a ha => by
        simpa using List.find?_eq_none.mp hfind a ha)).symm
  | module body => rfl
  | assign ln ts v => rfl
  | nameE ln id => rfl
  | listE ln elts => rfl
  | dictE ln elts => rfl
  | setE ln elts => rfl
  | other ln cs => rfl

/-- The S012 node check is `some` exactly on definitions with a mutable
default. -/
theorem defaultMutableCheckNode_isSome (path : String) (nd : Node) :
    (defaultMutableCheckNode path nd).isSome = hasMutableDefault nd := by
  cases nd with
  | functionDef ln nm ar body =>
    simp only [defaultMutableCheckNode, hasMutableDefault]
    cases hfind : ar.defaults.find? isMutableLiteral with
    | some d =>
      exact (List.any_eq_true.mpr
        ⟨d, List.mem_of_find?_eq_some hfind, List.find?_some hfind⟩).symm
    | none =>
      exact (List.any_eq_false.mpr (fun d hd => by
        simpa using List.find?_eq_none.mp hfind d hd)).symm
  | module body => rfl
  | assign ln ts v => rfl
  | nameE ln id => rfl
  | listE ln elts => rfl
  | dictE ln elts => rfl
  | setE ln elts => rfl
  | other ln cs => rfl

/-- C5 (amended): S010 fires exactly on the walked function definitions
having some ordinary positional parameter name — an entry of
`node.args.args`; positional-only, keyword-only, `*args` and `**kwargs`
names are never inspected — that fails `SNAKE_CASE`: every S010 violation
names such a definition and carries its header's line number, every such
definition yields a violation, and there is exactly one violation per
offending definition (first offending argument only). -/
theorem argument_name_check_correct (path : String) (tree : Node) :
    (∀ v ∈ astCheckRun argumentNameCheckNode path tree,
      v.code = "S010" ∧ ∃ ln nm ar body,
        Node.functionDef ln nm ar body ∈ walk tree ∧ v.line_no = ln ∧
        ∃ a ∈ PyArguments.args ar, isSnakeCase a.toList = false) ∧
    (∀ ln nm ar body, Node.functionDef ln nm ar body ∈ walk tree →
      (∃ a ∈ PyArguments.args ar, isSnakeCase a.toList = false) →
      ∃ v ∈ astCheckRun argumentNameCheckNode path tree,
        v.line_no = ln ∧ v.code = "S010" ∧
        v.message = "Argument name should use snake_case") ∧
    (astCheckRun argumentNameCheckNode path tree).length =
      (walk tree).countP hasBadArg := by
  refine ⟨?_, ?_, ?_⟩
  · intro v hv
    obtain ⟨nd, hnd, hf⟩ := List.mem_filterMap.mp hv
    cases nd with
    | functionDef ln nm ar body =>
      simp only [argumentNameCheckNode] at hf
      cases hfind : (PyArguments.args ar).find? (fun a => !isSnakeCase a.toList) with
      | some a =>
        rw [hfind] at hf
        cases hf
        refine ⟨rfl, ln, nm, ar, body, hnd, rfl, a,
          List.mem_of_find?_eq_some hfind, ?_⟩
        simpa using List.find?_some hfind
      | none => rw [hfind] at hf; cases hf
    | module body => cases hf
    | assign ln ts vE => cases hf
    | nameE ln id => cases hf
    | listE ln elts => cases hf
    | dictE ln elts => cases hf
    | setE ln elts => cases hf
    | other ln cs => cases hf
  · intro ln nm ar body hnd ⟨a, ha, hsnake⟩
    have hsome : ((PyArguments.args ar).find? (fun a => !isSnakeCase a.toList)).isSome :=
      List.find?_isSome.mpr ⟨a, ha, by simpa using hsnake⟩
    obtain ⟨a', hfind⟩ := Option.isSome_iff_exists.mp hsome
    refine ⟨⟨path, ln, "S010", "Argument name should use snake_case"⟩,
      List.mem_filterMap.mpr ⟨Node.functionDef ln nm ar body, hnd, ?_⟩,
      rfl, rfl, rfl⟩
    simp only [argumentNameCheckNode, hfind]
  · exact length_filterMap_countP _ _ _ (argumentNameCheckNode_isSome path)

/-- C5 counterexample: `def f(*, myArg): pass` parses successfully and has
the parameter name `myArg`, which fails snake_case, yet S010 never fires:
the name sits in `node.args.kwonlyargs`, which
`ArgumentNameCheck.check_node` does not iterate. -/
theorem argument_name_check_counterexample :
    astCheckRun argumentNameCheckNode "p"
      (Node.module [Node.functionDef 1 "f"
        (PyArguments.mk [] [] none ["myArg"] none [] []) [Node.other 1 []]]) = [] ∧
    isSnakeCase "myArg".toList = false := by decide

/-- C5 witness: `def f(a, myArg): pass` (a definition at line 1 whose
`node.args.args` is `[a, myArg]`) yields one S010 at line 1. -/
theorem argument_name_check_correct_witness :
    ∃ v ∈ astCheckRun argumentNameCheckNode "p"
        (Node.module [Node.functionDef 1 "f"
          (PyArguments.mk [] ["a", "myArg"] none [] none [] []) [Node.other 1 []]]),
      v.line_no = 1 ∧ v.code = "S010" ∧
      v.message = "Argument name should use snake_case" :=
  (argument_name_check_correct "p"
      (Node.module [Node.functionDef 1 "f"
        (PyArguments.mk [] ["a", "myArg"] none [] none [] []) [Node.other 1 []]])).2.1
    1 "f" (PyArguments.mk [] ["a", "myArg"] none [] none [] []) [Node.other 1 []]
    (by simp [walk, walkList, walkPyArguments])
    ⟨"myArg", by simp [PyArguments.args], by decide⟩

/-- C6 (amended): S012 fires exactly on the walked function definitions
having some default value in `node.args.defaults` — the defaults of
trailing positional parameters; the `kw_defaults` of keyword-only
parameters are never inspected — that is a mutable collection literal
(list, mapping, or set literal): every S012 violation names such a
definition and carries its header's line number, every such definition
yields a violation, and there is exactly one violation per offending
definition (first offending default only). -/
theorem default_mutable_check_correct (path : String) (tree : Node) :
    (∀ v ∈ astCheckRun defaultMutableCheckNode path tree,
      v.code = "S012" ∧ ∃ ln nm ar body,
        Node.functionDef ln nm ar body ∈ walk tree ∧ v.line_no = ln ∧
        ∃ d ∈ PyArguments.defaults ar, isMutableLiteral d = true) ∧
    (∀ ln nm ar body, Node.functionDef ln nm ar body ∈ walk tree →
      (∃ d ∈ PyArguments.defaults ar, isMutableLiteral d = true) →
      ∃ v ∈ astCheckRun defaultMutableCheckNode path tree,
        v.line_no = ln ∧ v.code = "S012" ∧
        v.message = "Default argument value is mutable") ∧
    (astCheckRun defaultMutableCheckNode path tree).length =
      (walk tree).countP hasMutableDefault := by
  refine ⟨?_, ?_, ?_⟩
  · intro v hv
    obtain ⟨nd, hnd, hf⟩ := List.mem_filterMap.mp hv
    cases nd with
    | functionDef ln nm ar body =>
      simp only [defaultMutableCheckNode] at hf
      cases hfind : (PyArguments.defaults ar).find? isMutableLiteral with
      | some d =>
        rw [hfind] at hf
        cases hf
        exact ⟨rfl, ln, nm, ar, body, hnd, rfl, d,
          List.mem_of_find?_eq_some hfind, List.find?_some hfind⟩
      | none => rw [hfind] at hf; cases hf
    | module body => cases hf
    | assign ln ts vE => cases hf
    | nameE ln id => cases hf
    | listE ln elts => cases hf
    | dictE ln elts => cases hf
    | setE ln elts => cases hf
    | other ln cs => cases hf
  · intro ln nm ar body hnd ⟨d, hd, hmut⟩
    have hsome : ((PyArguments.defaults ar).find? isMutableLiteral).isSome :=
      List.find?_isSome.mpr ⟨d, hd, hmut⟩
    obtain ⟨d', hfind⟩ := Option.isSome_iff_exists.mp hsome
    refine ⟨⟨path, ln, "S012", "Default argument value is mutable"⟩,
      List.mem_filterMap.mpr ⟨Node.functionDef ln nm ar body, hnd, ?_⟩,
      rfl, rfl, rfl⟩
    simp only [defaultMutableCheckNode, hfind]
  · exact length_filterMap_countP _ _ _ (defaultMutableCheckNode_isSome path)

/-- C6 counterexample: `def f(*, x=[]): pass` parses successfully and has
a default parameter value that is a list literal, yet S012 never fires:
the default sits in `node.args.kw_defaults`, which
`DefaultMutableCheck.check_node` does not iterate. -/
theorem default_mutable_check_counterexample :
    astCheckRun defaultMutableCheckNode "p"
      (Node.module [Node.functionDef 1 "f"
        (PyArguments.mk [] [] none ["x"] none [] [Node.listE 1 []])
        [Node.other 1 []]]) = [] ∧
    isMutableLiteral (Node.listE 1 []) = true := by decide

/-- C6 witness: `def f(x=[]): pass` (line 1, `node.args.defaults` holding
one list literal) yields one S012 at line 1, while `def f(x=None): pass`
(the default is a plain constant, modelled by `other`) yields none. -/
theorem default_mutable_check_correct_witness :
    (∃ v ∈ astCheckRun defaultMutableCheckNode "p"
        (Node.module [Node.functionDef 1 "f"
          (PyArguments.mk [] ["x"] none [] none [Node.listE 1 []] [])
          [Node.other 1 []]]),
      v.line_no = 1 ∧ v.code = "S012" ∧
      v.message = "Default argument value is mutable") ∧
    astCheckRun defaultMutableCheckNode "p"
      (Node.module [Node.functionDef 1 "f"
        (PyArguments.mk [] ["x"] none [] none [Node.other 1 []] [])
        [Node.other 1 []]]) = [] := by
  constructor
  · exact (default_mutable_check_correct "p"
        (Node.module [Node.functionDef 1 "f"
          (PyArguments.mk [] ["x"] none [] none [Node.listE 1 []] [])
          [Node.other 1 []]])).2.1
      1 "f" (PyArguments.mk [] ["x"] none [] none [Node.listE 1 []] [])
      [Node.other 1 []] (by simp [walk, walkList, walkPyArguments])
      ⟨Node.listE 1 [], by simp [PyArguments.defaults], rfl⟩
  · rfl

end CodeAnalyzer

namespace CodeAnalyzer

/-- S001 violations carry the scanned line's counter and code `S001`. -/
theorem lengthCheckLine_shape (p : String) (l : List Char) (n : Nat) (v : Violation)
    (h : lengthCheckLine p l n = some v) : v.line_no = n ∧ v.code = "S001" := by
  unfold lengthCheckLine at h
  split at h
  · cases h; exact ⟨rfl, rfl⟩
  · cases h

/-- S002 violations carry the scanned line's counter and code `S002`. -/
theorem indentCheckLine_shape (p : String) (l : List Char) (n : Nat) (v : Violation)
    (h : indentCheckLine p l n = some v) : v.line_no = n ∧ v.code = "S002" := by
  unfold indentCheckLine at h
  split at h
  · cases h; exact ⟨rfl, rfl⟩
  · cases h

/-- S003 violations carry the scanned line's counter and code `S003`. -/
theorem semicolonCheckLine_shape (p : String) (l : List Char) (n : Nat) (v : Violation)
    (h : semicolonCheckLine p l n = some v) : v.line_no = n ∧ v.code = "S003" := by
  unfold semicolonCheckLine at h
  split at h
  · cases h; exact ⟨rfl, rfl⟩
  · cases h

/-- S004 violations carry the scanned line's counter and code `S004`. -/
theorem spacesBeforeCommentCheckLine_shape (p : String) (l : List Char) (n : Nat)
    (v : Violation) (h : spacesBeforeCommentCheckLine p l n = some v) :
    v.line_no = n ∧ v.code = "S004" := by
  unfold spacesBeforeCommentCheckLine at h
  split at h
  · split at h
    · cases h; exact ⟨rfl, rfl⟩
    · cases h
  · cases h

/-- S005 violations carry the scanned line's counter and code `S005`. -/
theorem todoCheckLine_shape (p : String) (l : List Char) (n : Nat) (v : Violation)
    (h : todoCheckLine p l n = some v) : v.line_no = n ∧ v.code = "S005" := by
  unfold todoCheckLine at h
  split at h
  · cases h; exact ⟨rfl, rfl⟩
  · cases h

/-- S007 violations carry the scanned line's counter and code `S007`. -/
theorem constructionSpaceCheckLine_shape (p : String) (l : List Char) (n : Nat)
    (v : Violation) (h : constructionSpaceCheckLine p l n = some v) :
    v.line_no = n ∧ v.code = "S007" := by
  simp only [constructionSpaceCheckLine] at h
  split at h
  · cases h; exact ⟨rfl, rfl⟩
  · split at h
    · cases h; exact ⟨rfl, rfl⟩
    · cases h

/-- S008 violations carry the scanned line's counter and code `S008`. -/
theorem classNameCheckLine_shape (p : String) (l : List Char) (n : Nat) (v : Violation)
    (h : classNameCheckLine p l n = some v) : v.line_no = n ∧ v.code = "S008" := by
  unfold classNameCheckLine at h
  split at h
  · split at h
    · cases h; exact ⟨rfl, rfl⟩
    · cases h
  · cases h

/-- S009 violations carry the scanned line's counter and code `S009`. -/
theorem functionNameCheckLine_shape (p : String) (l : List Char) (n : Nat) (v : Violation)
    (h : functionNameCheckLine p l n = some v) : v.line_no = n ∧ v.code = "S009" := by
  unfold functionNameCheckLine at h
  split at h
  · split at h
    · cases h; exact ⟨rfl, rfl⟩
    · cases h
  · cases h

/-- Violations collected by the line-scan loop sit between the starting
counter and the last scanned line, with the producing rule's code. -/
theorem mem_lineCheckAux {f : String → List Char → Nat → Option Violation}
    {path : String} {c : String}
    (hf : ∀ p l k v, f p l k = some v → v.line_no = k ∧ v.code = c) :
    ∀ (ls : List (List Char)) (n : Nat) (v : Violation),
      v ∈ lineCheckAux f path n ls →
      (n ≤ v.line_no ∧ v.line_no < n + ls.length) ∧ v.code = c := by
  intro ls
  induction ls with
  | nil => intro n v hv; cases hv
  | cons l ls ih =>
    intro n v hv
    simp only [lineCheckAux] at hv
    cases hm : f path l n with
    | some w =>
      rw [hm] at hv
      cases hv with
      | head =>
        obtain ⟨h1, h2⟩ := hf path l n v hm
        refine ⟨⟨by omega, ?_⟩, h2⟩
        simp only [List.length_cons]
        omega
      | tail _ hv' =>
        obtain ⟨⟨h1, h2⟩, h3⟩ := ih (n + 1) v hv'
        refine ⟨⟨by omega, ?_⟩, h3⟩
        simp only [List.length_cons]
        omega
    | none =>
      rw [hm] at hv
      obtain ⟨⟨h1, h2⟩, h3⟩ := ih (n + 1) v hv
      refine ⟨⟨by omega, ?_⟩, h3⟩
      simp only [List.length_cons]
      omega

/-- S006 violations point at an existing line of the file. -/
theorem mem_tooManyBlankCheck (path : String) (lines : List (List Char)) (v : Violation)
    (hv : v ∈ tooManyBlankCheck path lines) :
    (1 ≤ v.line_no ∧ v.line_no ≤ lines.length) ∧ v.code = "S006" := by
  obtain ⟨idx, hidx, hsome⟩ := List.mem_filterMap.mp hv
  rw [List.mem_range] at hidx
  split at hsome
  · cases hsome
    exact ⟨⟨by show 1 ≤ idx + 1; omega, by show idx + 1 ≤ lines.length; omega⟩, rfl⟩
  · cases hsome

/-- S010 violations carry the definition node's line and code `S010`. -/
theorem argumentNameCheckNode_shape (p : String) (nd : Node) (v : Violation)
    (h : argumentNameCheckNode p nd = some v) :
    v.line_no = nd.lineno ∧ v.code = "S010" := by
  cases nd with
  | functionDef ln nm ar body =>
    simp only [argumentNameCheckNode] at h
    cases hfind : (PyArguments.args ar).find? (fun a => !isSnakeCase a.toList) with
    | some a => rw [hfind] at h; cases h; exact ⟨rfl, rfl⟩
    | none => rw [hfind] at h; cases h
  | module body => cases h
  | assign ln ts vE => cases h
  | nameE ln id => cases h
  | listE ln elts => cases h
  | dictE ln elts => cases h
  | setE ln elts => cases h
  | other ln cs => cases h

/-- S011 violations carry the assignment node's line and code `S011`. -/
theorem variableNameCheckNode_shape (p : String) (nd : Node) (v : Violation)
    (h : variableNameCheckNode p nd = some v) :
    v.line_no = nd.lineno ∧ v.code = "S011" := by
  cases nd with
  | assign ln ts vE =>
    simp only [variableNameCheckNode] at h
    cases hfind : ts.find? badNameTarget with
    | some t => rw [hfind] at h; cases h; exact ⟨rfl, rfl⟩
    | none => rw [hfind] at h; cases h
  | module body => cases h
  | functionDef ln nm ar body => cases h
  | nameE ln id => cases h
  | listE ln elts => cases h
  | dictE ln elts => cases h
  | setE ln elts => cases h
  | other ln cs => cases h

/-- S012 violations carry the definition node's line and code `S012`. -/
theorem defaultMutableCheckNode_shape (p : String) (nd : Node) (v : Violation)
    (h : defaultMutableCheckNode p nd = some v) :
    v.line_no = nd.lineno ∧ v.code = "S012" := by
  cases nd with
  | functionDef ln nm ar body =>
    simp only [defaultMutableCheckNode] at h
    cases hfind : (PyArguments.defaults ar).find? isMutableLiteral with
    | some d => rw [hfind] at h; cases h; exact ⟨rfl, rfl⟩
    | none => rw [hfind] at h; cases h
  | module body => cases h
  | assign ln ts vE => cases h
  | nameE ln id => cases h
  | listE ln elts => cases h
  | dictE ln elts => cases h
  | setE ln elts => cases h
  | other ln cs => cases h

/-- Violations collected by the tree-walk loop take their line from a
walked node and carry the producing rule's code. -/
theorem mem_astCheckRun {g : String → Node → Option Violation} {path c : String}
    (hg : ∀ p nd v, g p nd = some v → v.line_no = nd.lineno ∧ v.code = c)
    (tree : Node) (v : Violation) (hv : v ∈ astCheckRun g path tree) :
    (∃ nd ∈ walk tree, v.line_no = nd.lineno) ∧ v.code = c := by
  obtain ⟨nd, hnd, hf⟩ := List.mem_filterMap.mp hv
  obtain ⟨h1, h2⟩ := hg path nd v hf
  exact ⟨⟨nd, hnd, h1⟩, h2⟩

end CodeAnalyzer

namespace CodeAnalyzer

/-- The concatenation, in rule-declaration order, of the twelve checks'
violation lists — the list `Analyzer.check` accumulates. -/
def allViolationsList (path : String) (lines : List (List Char)) (tree : Node) :
    List Violation :=
  lineCheckRun lengthCheckLine path lines ++
  lineCheckRun indentCheckLine path lines ++
  lineCheckRun semicolonCheckLine path lines ++
  lineCheckRun spacesBeforeCommentCheckLine path lines ++
  lineCheckRun todoCheckLine path lines ++
  tooManyBlankCheck path lines ++
  lineCheckRun constructionSpaceCheckLine path lines ++
  lineCheckRun classNameCheckLine path lines ++
  lineCheckRun functionNameCheckLine path lines ++
  astCheckRun argumentNameCheckNode path tree ++
  astCheckRun variableNameCheckNode path tree ++
  astCheckRun defaultMutableCheckNode path tree

/-- When the parse succeeds, `Analyzer.check` accumulates exactly the
twelve blocks in declaration order. -/
theorem analyzerViolations_parse_ok (parse : String → Except String Node)
    (path source : String) (tree : Node) (hp : parse source = Except.ok tree) :
    analyzerViolations parse path source =
      Except.ok (allViolationsList path (linesOf source) tree) := by
  unfold analyzerViolations
  rw [hp]
  rfl

/-- C9: Every violation produced by any of the twelve checks has a
`line_no` that is a valid 1-based index into the file's physical lines
(line checks: the scanned line's counter) or is the starting line of a
walked syntax construct (tree checks). -/
theorem violation_line_numbers_valid (parse : String → Except String Node)
    (path source : String) (tree : Node) (vs : List Violation)
    (hp : parse source = Except.ok tree)
    (h : analyzerViolations parse path source = Except.ok vs) :
    ∀ v ∈ vs,
      (1 ≤ v.line_no ∧ v.line_no ≤ (linesOf source).length) ∨
      ∃ nd ∈ walk tree, v.line_no = nd.lineno := by
  rw [analyzerViolations_parse_ok parse path source tree hp] at h
  cases h
  intro v hv
  simp only [allViolationsList, List.mem_append] at hv
  rcases hv with ((((((((((h1 | h2) | h3) | h4) | h5) | h6) | h7) | h8) | h9) | h10) | h11) | h12
  · obtain ⟨⟨a, b⟩, _⟩ := mem_lineCheckAux lengthCheckLine_shape _ 1 v h1
    exact Or.inl ⟨a, by omega⟩
  · obtain ⟨⟨a, b⟩, _⟩ := mem_lineCheckAux indentCheckLine_shape _ 1 v h2
    exact Or.inl ⟨a, by omega⟩
  · obtain ⟨⟨a, b⟩, _⟩ := mem_lineCheckAux semicolonCheckLine_shape _ 1 v h3
    exact Or.inl ⟨a, by omega⟩
  · obtain ⟨⟨a, b⟩, _⟩ := mem_lineCheckAux spacesBeforeCommentCheckLine_shape _ 1 v h4
    exact Or.inl ⟨a, by omega⟩
  · obtain ⟨⟨a, b⟩, _⟩ := mem_lineCheckAux todoCheckLine_shape _ 1 v h5
    exact Or.inl ⟨a, by omega⟩
  · obtain ⟨⟨a, b⟩, _⟩ := mem_tooManyBlankCheck path _ v h6
    exact Or.inl ⟨a, b⟩
  · obtain ⟨⟨a, b⟩, _⟩ := mem_lineCheckAux constructionSpaceCheckLine_shape _ 1 v h7
    exact Or.inl ⟨a, by omega⟩
  · obtain ⟨⟨a, b⟩, _⟩ := mem_lineCheckAux classNameCheckLine_shape _ 1 v h8
    exact Or.inl ⟨a, by omega⟩
  · obtain ⟨⟨a, b⟩, _⟩ := mem_lineCheckAux functionNameCheckLine_shape _ 1 v h9
    exact Or.inl ⟨a, by omega⟩
  · exact Or.inr (mem_astCheckRun argumentNameCheckNode_shape tree v h10).1
  · exact Or.inr (mem_astCheckRun variableNameCheckNode_shape tree v h11).1
  · exact Or.inr (mem_astCheckRun defaultMutableCheckNode_shape tree v h12).1

/-- C9 witness: the S003 violation of `"x = 1;"` points at line 1 of the
one-line file. -/
theorem violation_line_numbers_valid_witness :
    (1 ≤ (⟨"p", 1, "S003", "Unnecessary semicolon after a statement"⟩ : Violation).line_no ∧
      (⟨"p", 1, "S003", "Unnecessary semicolon after a statement"⟩ : Violation).line_no ≤
        (linesOf "x = 1;").length) ∨
    ∃ nd ∈ walk (Node.module []),
      (⟨"p", 1, "S003", "Unnecessary semicolon after a statement"⟩ : Violation).line_no =
        nd.lineno :=
  violation_line_numbers_valid parseStub "p" "x = 1;" (Node.module [])
    [⟨"p", 1, "S003", "Unnecessary semicolon after a statement"⟩] rfl rfl
    ⟨"p", 1, "S003", "Unnecessary semicolon after a statement"⟩ (by decide)

end CodeAnalyzer

namespace CodeAnalyzer

/-- The position of a rule's code in the fixed declaration order
S001, S002, ..., S012 of `Analyzer.__init__`'s check list. -/
def codeIdx (c : String) : Nat :=
  if c = "S001" then 1 else if c = "S002" then 2 else if c = "S003" then 3
  else if c = "S004" then 4 else if c = "S005" then 5 else if c = "S006" then 6
  else if c = "S007" then 7 else if c = "S008" then 8 else if c = "S009" then 9
  else if c = "S010" then 10 else if c = "S011" then 11 else if c = "S012" then 12
  else 0

/-- Insertion adds the new element and keeps the rest. -/
theorem mem_insertByLine (v x : Violation) (ws : List Violation) :
    x ∈ insertByLine v ws ↔ x = v ∨ x ∈ ws := by
  induction ws with
  | nil => simp [insertByLine]
  | cons w ws ih =>
    simp only [insertByLine]
    split
    · simp only [List.mem_cons, ih]
      tauto
    · simp only [List.mem_cons]
      try tauto

/-- Sorting keeps exactly the input's elements. -/
theorem mem_sortByLine (x : Violation) (l : List Violation) :
    x ∈ sortByLine l ↔ x ∈ l := by
  induction l with
  | nil => simp [sortByLine]
  | cons v vs ih => simp [sortByLine, mem_insertByLine, ih]

/-- Inserting into a line-sorted list keeps it line-sorted. -/
theorem insertByLine_sorted (v : Violation) (ws : List Violation)
    (h : ws.Pairwise (fun a b => a.line_no ≤ b.line_no)) :
    (insertByLine v ws).Pairwise (fun a b => a.line_no ≤ b.line_no) := by
  induction ws with
  | nil => simp [insertByLine]
  | cons w ws ih =>
    rw [List.pairwise_cons] at h
    obtain ⟨hw, hws⟩ := h
    simp only [insertByLine]
    split
    · rename_i hlt
      rw [List.pairwise_cons]
      refine ⟨?_, ih hws⟩
      intro x hx
      rcases (mem_insertByLine v x ws).mp hx with rfl | hx'
      · omega
      · exact hw x hx'
    · rename_i hge
      rw [List.pairwise_cons]
      refine ⟨?_, List.pairwise_cons.mpr ⟨hw, hws⟩⟩
      intro x hx
      rcases List.mem_cons.mp hx with rfl | hx'
      · omega
      · have := hw x hx'
        omega

/-- `sortByLine` sorts by line number (non-decreasing). -/
theorem sortByLine_sorted (l : List Violation) :
    (sortByLine l).Pairwise (fun a b => a.line_no ≤ b.line_no) := by
  induction l with
  | nil => simp [sortByLine]
  | cons v vs ih => exact insertByLine_sorted v (sortByLine vs) ih

/-- Stability of insertion: pairs whose lines coincide keep their relative
code order, because the inserted element only moves past elements with a
strictly smaller line number. -/
theorem insertByLine_stable (v : Violation) (ws : List Violation)
    (h : ws.Pairwise (fun a b => a.line_no = b.line_no →
      codeIdx a.code ≤ codeIdx b.code))
    (hv' : ∀ w ∈ ws, v.line_no = w.line_no → codeIdx v.code ≤ codeIdx w.code) :
    (insertByLine v ws).Pairwise (fun a b => a.line_no = b.line_no →
      codeIdx a.code ≤ codeIdx b.code) := by
  induction ws with
  | nil => simp [insertByLine]
  | cons w ws ih =>
    rw [List.pairwise_cons] at h
    obtain ⟨hw, hws⟩ := h
    simp only [insertByLine]
    split
    · rename_i hlt
      rw [List.pairwise_cons]
      refine ⟨?_, ih hws (fun x hx => hv' x (List.mem_cons_of_mem w hx))⟩
      intro x hx heq
      rcases (mem_insertByLine v x ws).mp hx with rfl | hx'
      · omega
      · exact hw x hx' heq
    · rename_i hge
      rw [List.pairwise_cons]
      refine ⟨?_, List.pairwise_cons.mpr ⟨hw, hws⟩⟩
      intro x hx
      exact hv' x hx

/-- `sortByLine` preserves the tie relation: if the input lists every
equal-line pair in non-decreasing code order, so does the output. -/
theorem sortByLine_stable (l : List Violation)
    (h : l.Pairwise (fun a b => a.line_no = b.line_no →
      codeIdx a.code ≤ codeIdx b.code)) :
    (sortByLine l).Pairwise (fun a b => a.line_no = b.line_no →
      codeIdx a.code ≤ codeIdx b.code) := by
  induction l with
  | nil => simp [sortByLine]
  | cons v vs ih =>
    rw [List.pairwise_cons] at h
    obtain ⟨hv, hvs⟩ := h
    exact insertByLine_stable v (sortByLine vs) (ih hvs)
      (fun w hw => hv w ((mem_sortByLine w vs).mp hw))

end CodeAnalyzer

namespace CodeAnalyzer

/-- Prepending a block of constant code index `k` in front of a list whose
members all have index at least `k` keeps the whole list non-decreasing in
code index. -/
theorem pairwise_code_append (xs ys : List Violation) (k : Nat)
    (hx : ∀ v ∈ xs, codeIdx v.code = k)
    (hy : ys.Pairwise (fun a b => codeIdx a.code ≤ codeIdx b.code))
    (hyk : ∀ w ∈ ys, k ≤ codeIdx w.code) :
    ((xs ++ ys).Pairwise (fun a b => codeIdx a.code ≤ codeIdx b.code)) ∧
    ∀ w ∈ xs ++ ys, k ≤ codeIdx w.code := by
  constructor
  · rw [List.pairwise_append]
    refine ⟨?_, hy, ?_⟩
    · exact List.pairwise_of_forall_mem_list (fun a ha b hb => by
        rw [hx a ha, hx b hb])
    · intro a ha b hb
      rw [hx a ha]
      exact hyk b hb
  · intro w hw
    rcases List.mem_append.mp hw with hw' | hw'
    · rw [hx w hw']
    · exact hyk w hw'

/-- The accumulated violation list is non-decreasing in rule-declaration
index: each block carries one rule's code, and the blocks appear in
declaration order. -/
theorem allViolationsList_pairwise (path : String) (lines : List (List Char))
    (tree : Node) :
    (allViolationsList path lines tree).Pairwise
      (fun a b => codeIdx a.code ≤ codeIdx b.code) := by
  have c1 : ∀ v ∈ lineCheckRun lengthCheckLine path lines, codeIdx v.code = 1 :=
    fun v hv => by rw [(mem_lineCheckAux lengthCheckLine_shape _ 1 v hv).2]; rfl
  have c2 : ∀ v ∈ lineCheckRun indentCheckLine path lines, codeIdx v.code = 2 :=
    fun v hv => by rw [(mem_lineCheckAux indentCheckLine_shape _ 1 v hv).2]; rfl
  have c3 : ∀ v ∈ lineCheckRun semicolonCheckLine path lines, codeIdx v.code = 3 :=
    fun v hv => by rw [(mem_lineCheckAux semicolonCheckLine_shape _ 1 v hv).2]; rfl
  have c4 : ∀ v ∈ lineCheckRun spacesBeforeCommentCheckLine path lines,
      codeIdx v.code = 4 :=
    fun v hv => by
      rw [(mem_lineCheckAux spacesBeforeCommentCheckLine_shape _ 1 v hv).2]; rfl
  have c5 : ∀ v ∈ lineCheckRun todoCheckLine path lines, codeIdx v.code = 5 :=
    fun v hv => by rw [(mem_lineCheckAux todoCheckLine_shape _ 1 v hv).2]; rfl
  have c6 : ∀ v ∈ tooManyBlankCheck path lines, codeIdx v.code = 6 :=
    fun v hv => by rw [(mem_tooManyBlankCheck path lines v hv).2]; rfl
  have c7 : ∀ v ∈ lineCheckRun constructionSpaceCheckLine path lines,
      codeIdx v.code = 7 :=
    fun v hv => by
      rw [(mem_lineCheckAux constructionSpaceCheckLine_shape _ 1 v hv).2]; rfl
  have c8 : ∀ v ∈ lineCheckRun classNameCheckLine path lines, codeIdx v.code = 8 :=
    fun v hv => by rw [(mem_lineCheckAux classNameCheckLine_shape _ 1 v hv).2]; rfl
  have c9 : ∀ v ∈ lineCheckRun functionNameCheckLine path lines, codeIdx v.code = 9 :=
    fun v hv => by rw [(mem_lineCheckAux functionNameCheckLine_shape _ 1 v hv).2]; rfl
  have c10 : ∀ v ∈ astCheckRun argumentNameCheckNode path tree, codeIdx v.code = 10 :=
    fun v hv => by rw [(mem_astCheckRun argumentNameCheckNode_shape tree v hv).2]; rfl
  have c11 : ∀ v ∈ astCheckRun variableNameCheckNode path tree, codeIdx v.code = 11 :=
    fun v hv => by rw [(mem_astCheckRun variableNameCheckNode_shape tree v hv).2]; rfl
  have c12 : ∀ v ∈ astCheckRun defaultMutableCheckNode path tree, codeIdx v.code = 12 :=
    fun v hv => by rw [(mem_astCheckRun defaultMutableCheckNode_shape tree v hv).2]; rfl
  have s12 := pairwise_code_append (astCheckRun defaultMutableCheckNode path tree) [] 12
    c12 (List.Pairwise.nil) (by intro w hw; cases hw)
  rw [List.append_nil] at s12
  have s11 := pairwise_code_append (astCheckRun variableNameCheckNode path tree) _ 11
    c11 s12.1 (fun w hw => by have := s12.2 w hw; omega)
  have s10 := pairwise_code_append (astCheckRun argumentNameCheckNode path tree) _ 10
    c10 s11.1 (fun w hw => by have := s11.2 w hw; omega)
  have s9 := pairwise_code_append (lineCheckRun functionNameCheckLine path lines) _ 9
    c9 s10.1 (fun w hw => by have := s10.2 w hw; omega)
  have s8 := pairwise_code_append (lineCheckRun classNameCheckLine path lines) _ 8
    c8 s9.1 (fun w hw => by have := s9.2 w hw; omega)
  have s7 := pairwise_code_append (lineCheckRun constructionSpaceCheckLine path lines) _ 7
    c7 s8.1 (fun w hw => by have := s8.2 w hw; omega)
  have s6 := pairwise_code_append (tooManyBlankCheck path lines) _ 6
    c6 s7.1 (fun w hw => by have := s7.2 w hw; omega)
  have s5 := pairwise_code_append (lineCheckRun todoCheckLine path lines) _ 5
    c5 s6.1 (fun w hw => by have := s6.2 w hw; omega)
  have s4 := pairwise_code_append (lineCheckRun spacesBeforeCommentCheckLine path lines) _ 4
    c4 s5.1 (fun w hw => by have := s5.2 w hw; omega)
  have s3 := pairwise_code_append (lineCheckRun semicolonCheckLine path lines) _ 3
    c3 s4.1 (fun w hw => by have := s4.2 w hw; omega)
  have s2 := pairwise_code_append (lineCheckRun indentCheckLine path lines) _ 2
    c2 s3.1 (fun w hw => by have := s3.2 w hw; omega)
  have s1 := pairwise_code_append (lineCheckRun lengthCheckLine path lines) _ 1
    c1 s2.1 (fun w hw => by have := s2.2 w hw; omega)
  have : allViolationsList path lines tree =
      lineCheckRun lengthCheckLine path lines ++
      (lineCheckRun indentCheckLine path lines ++
      (lineCheckRun semicolonCheckLine path lines ++
      (lineCheckRun spacesBeforeCommentCheckLine path lines ++
      (lineCheckRun todoCheckLine path lines ++
      (tooManyBlankCheck path lines ++
      (lineCheckRun constructionSpaceCheckLine path lines ++
      (lineCheckRun classNameCheckLine path lines ++
      (lineCheckRun functionNameCheckLine path lines ++
      (astCheckRun argumentNameCheckNode path tree ++
      (astCheckRun variableNameCheckNode path tree ++
      astCheckRun defaultMutableCheckNode path tree)))))))))) := by
    simp [allViolationsList, List.append_assoc]
  rw [this]
  exact s1.1

end CodeAnalyzer

namespace CodeAnalyzer

/-- C1: For every input file (whose parse succeeds, so printing is
reached), the Analyzer emits exactly one output line per detected
violation, each formatted exactly as
`<path>: Line <line_no>: <code> <message>`; the emitted lines are in
non-decreasing `line_no` order, and any two violations with the same
`line_no` appear in the fixed rule-declaration order S001, ..., S012
(the sort is stable and keyed by line number only). -/
theorem analyzer_output_ordered (parse : String → Except String Node)
    (path source : String) (vs : List Violation)
    (h : analyzerViolations parse path source = Except.ok vs) :
    analyzerOutput parse path source = Except.ok ((sortByLine vs).map (fun v =>
      v.src_path ++ ": Line " ++ toString v.line_no ++ ": " ++ v.code ++ " " ++ v.message)) ∧
    (sortByLine vs).Pairwise (fun a b => a.line_no ≤ b.line_no) ∧
    (sortByLine vs).Pairwise (fun a b => a.line_no = b.line_no →
      codeIdx a.code ≤ codeIdx b.code) := by
  refine ⟨?_, sortByLine_sorted vs, ?_⟩
  · unfold analyzerOutput
    rw [h]
    rfl
  · cases hp : parse source with
    | error e =>
      rw [analyzerViolations_parse_error parse path source e hp] at h
      cases h
    | ok tree =>
      rw [analyzerViolations_parse_ok parse path source tree hp] at h
      cases h
      exact sortByLine_stable _
        ((allViolationsList_pairwise path (linesOf source) tree).imp
          (fun {a b} hab (_ : a.line_no = b.line_no) => hab))

/-- C1 witness: `"x = 1;  # TODO"` produces S003 and S005, both on line 1;
the report renders both, line-sorted, with S003 (declared earlier) first. -/
theorem analyzer_output_ordered_witness :
    analyzerOutput parseStub "p" "x = 1;  # TODO" = Except.ok
      ((sortByLine [⟨"p", 1, "S003", "Unnecessary semicolon after a statement"⟩,
        ⟨"p", 1, "S005", "TODO found"⟩]).map (fun v =>
        v.src_path ++ ": Line " ++ toString v.line_no ++ ": " ++ v.code ++ " " ++ v.message)) ∧
    (sortByLine [⟨"p", 1, "S003", "Unnecessary semicolon after a statement"⟩,
      ⟨"p", 1, "S005", "TODO found"⟩]).Pairwise
      (fun a b => a.line_no ≤ b.line_no) ∧
    (sortByLine [⟨"p", 1, "S003", "Unnecessary semicolon after a statement"⟩,
      ⟨"p", 1, "S005", "TODO found"⟩]).Pairwise
      (fun a b => a.line_no = b.line_no → codeIdx a.code ≤ codeIdx b.code) :=
  analyzer_output_ordered parseStub "p" "x = 1;  # TODO"
    [⟨"p", 1, "S003", "Unnecessary semicolon after a statement"⟩,
      ⟨"p", 1, "S005", "TODO found"⟩] (by rfl)

end CodeAnalyzer
